import Mathlib

/-
Verification of the IDV Server Ping Checker repository.

The development shallowly embeds the two algorithmic subsystems of the
repository:

Region Scanner (client page, the grouped variant with region-specific
early-termination thresholds):
  measurePing (sample reduction), pingGroup, activeGroup resolution.

Geo Resolver (the three-provider server route: batch, ip-api/json,
ipwho.is):
  provider bucketing, record normalization and merging, the in-memory
  cache, the POST handler with validation, primary lookups, the
  enrichment pass, and result assembly.

Network responses are modelled as oracle functions supplied as inputs;
the JS single-threaded interleaving of the two group probers is modelled
by letting a group prober observe the sibling success counter as a
function of its own step index.
-/

namespace IDV

/-! ### Geo records (source: geo route, EMPTY_INFO / hasGeoInfo / mergeInfo) -/

/-- Canonical geo record, the shape { country_code, country, org } used by
the geo route. -/
structure GeoInfo where
  country_code : String
  country : String
  org : String
deriving DecidableEq, Repr

/-- Source constant EMPTY_INFO: the all-empty record. -/
def EMPTY_INFO : GeoInfo := { country_code := "", country := "", org := "" }

/-- Source function hasGeoInfo: true iff at least one field is non-empty. -/
def hasGeoInfo (i : GeoInfo) : Bool :=
  (i.country_code != "") || (i.country != "") || (i.org != "")

/-- Source function mergeInfo(primary, secondary): each field is the
secondary field when non-empty, otherwise the primary field (JS
secondary.f or primary.f or empty). -/
def mergeInfo (primary secondary : GeoInfo) : GeoInfo :=
  { country_code :=
      if secondary.country_code = "" then primary.country_code
      else secondary.country_code
    country := if secondary.country = "" then primary.country else secondary.country
    org := if secondary.org = "" then primary.org else secondary.org }

/-! ### Region scanner data model (source: client page, pingRegion and pingGroup) -/

/-- Probe status of one endpoint, the enum used by the client page. -/
inductive Status where
  | waiting
  | measuring
  | done
  | timeout
  | skipped
deriving DecidableEq, Repr

/-- One endpoint handed to a group prober: the position of the server in
the region list plus its address. -/
structure ServerItem where
  index : Nat
  ip : String
  port : Nat
deriving DecidableEq, Repr

/-- One per-endpoint outcome record pushed onto stats.results. -/
structure OutcomeRec where
  index : Nat
  ping : Option Nat
  status : Status
deriving DecidableEq, Repr

/-- Running statistics of one group prober. -/
structure GroupStats where
  timeouts : Nat
  ups : Nat
  results : List OutcomeRec
deriving DecidableEq, Repr

/-- Source: region-specific early-termination threshold; the Asia region
uses 3 timeouts, every other region uses 5. -/
def timeoutThreshold (regionId : String) : Nat :=
  if regionId = "asianormal" then 3 else 5

/-- Outcome records produced for the remaining endpoints when early
termination fires: each one gets ping null and status skipped. -/
def skipRemaining (items : List ServerItem) : List OutcomeRec :=
  items.map (fun s => { index := s.index, ping := none, status := Status.skipped })

/-- Shallow embedding of the pingGroup loop. Before probing each endpoint
the early-termination condition is checked: own timeouts at or above the
threshold and the sibling group success count (observed at the current
step, modelled by otherUps applied to the step counter) at least 3; when
it fires the remaining endpoints are pushed as skipped and the loop
stops. Otherwise the endpoint is probed; a non-null ping increments ups
and records status done, a null ping increments timeouts and records
status timeout. -/
def pingGroupAux (threshold : Nat) (probe : ServerItem → Option Nat)
    (otherUps : Nat → Nat) : List ServerItem → Nat → GroupStats → GroupStats
  | [], _, stats => stats
  | s :: rest, k, stats =>
    if stats.timeouts ≥ threshold ∧ otherUps k ≥ 3 then
      { stats with results := stats.results ++ skipRemaining (s :: rest) }
    else
      match probe s with
      | some v =>
          pingGroupAux threshold probe otherUps rest (k + 1)
            { stats with ups := stats.ups + 1,
                         results := stats.results ++
                           [{ index := s.index, ping := some v, status := Status.done }] }
      | none =>
          pingGroupAux threshold probe otherUps rest (k + 1)
            { stats with timeouts := stats.timeouts + 1,
                         results := stats.results ++
                           [{ index := s.index, ping := none, status := Status.timeout }] }

/-- Entry point of the group prober: start at step 0 with zeroed stats. -/
def pingGroup (threshold : Nat) (probe : ServerItem → Option Nat)
    (otherUps : Nat → Nat) (items : List ServerItem) : GroupStats :=
  pingGroupAux threshold probe otherUps items 0 { timeouts := 0, ups := 0, results := [] }

/-- Source: activeGroup resolution from the two final success counts in
pingRegion. -/
def resolveActiveGroup (aUps bUps : Nat) : Option String :=
  if aUps > 0 ∧ bUps = 0 then some "A"
  else if bUps > 0 ∧ aUps = 0 then some "B"
  else if aUps > 0 ∧ bUps > 0 then some "A+B"
  else none

/-! ### Claim C1: early termination of a group prober -/

/-- C1: for every grouped region scan, the group prober checks before each
endpoint whether its own timeout count has reached the region-specific
threshold (3 for the Asia region id, 5 for every other region id) and the
sibling success count is at least 3; when the condition holds, the loop
result appends exactly the skipped records for every remaining untried
endpoint (status skipped, ping null) and exits, and the probe function is
never consulted (the result is the same for every probe function). -/
theorem pingGroup_early_termination :
    (timeoutThreshold "asianormal" = 3) ∧
    (∀ r : String, r ≠ "asianormal" → timeoutThreshold r = 5) ∧
    (∀ (regionId : String) (probe : ServerItem → Option Nat)
        (otherUps : Nat → Nat) (s : ServerItem) (rest : List ServerItem)
        (k : Nat) (stats : GroupStats),
      stats.timeouts ≥ timeoutThreshold regionId → otherUps k ≥ 3 →
        pingGroupAux (timeoutThreshold regionId) probe otherUps (s :: rest) k stats =
          { stats with results := stats.results ++ skipRemaining (s :: rest) } ∧
        (∀ probe2 : ServerItem → Option Nat,
          pingGroupAux (timeoutThreshold regionId) probe otherUps (s :: rest) k stats =
            pingGroupAux (timeoutThreshold regionId) probe2 otherUps (s :: rest) k stats) ∧
        (∀ o ∈ skipRemaining (s :: rest), o.status = Status.skipped ∧ o.ping = none)) := by
  refine ⟨rfl, ?_, ?_⟩
  · intro r hr
    simp [timeoutThreshold, hr]
  · intro regionId probe otherUps s rest k stats h1 h2
    refine ⟨?_, ?_, ?_⟩
    · simp only [pingGroupAux]
      rw [if_pos ⟨h1, h2⟩]
    · intro probe2
      simp only [pingGroupAux]
      rw [if_pos ⟨h1, h2⟩, if_pos ⟨h1, h2⟩]
    · intro o ho
      simp only [skipRemaining, List.mem_map] at ho
      obtain ⟨x, _, rfl⟩ := ho
      exact ⟨rfl, rfl⟩

/-- Witness for C1 at a concrete state: with the Asia threshold 3, a stats
record holding 3 timeouts and a sibling success count of 3, the prober
skips both remaining endpoints without probing. -/
theorem pingGroup_early_termination_witness :
    (3 ≥ timeoutThreshold "asianormal") ∧ ((fun _ : Nat => 3) 0 ≥ 3) ∧
      pingGroupAux (timeoutThreshold "asianormal") (fun _ => some 40) (fun _ => 3)
          [{ index := 4, ip := "1.2.3.4", port := 4000 },
           { index := 5, ip := "5.6.7.8", port := 4000 }] 0
          { timeouts := 3, ups := 0, results := [] } =
        { timeouts := 3, ups := 0,
          results := [{ index := 4, ping := none, status := Status.skipped },
                      { index := 5, ping := none, status := Status.skipped }] } := by
  refine ⟨by decide, by decide, ?_⟩
  have h := (pingGroup_early_termination.2.2 "asianormal" (fun _ => some 40)
    (fun _ => 3) { index := 4, ip := "1.2.3.4", port := 4000 }
    [{ index := 5, ip := "5.6.7.8", port := 4000 }] 0
    { timeouts := 3, ups := 0, results := [] } (by decide) (by decide)).1
  simpa [skipRemaining] using h

/-! ### Claim C2: active-group resolution -/

/-- C2: the active group of a completed grouped scan is resolved from the
two final success counts: only A alive gives A, only B alive gives B,
both alive gives A+B, both dead gives none. -/
theorem resolveActiveGroup_cases :
    ∀ aUps bUps : Nat,
      (aUps > 0 → bUps = 0 → resolveActiveGroup aUps bUps = some "A") ∧
      (bUps > 0 → aUps = 0 → resolveActiveGroup aUps bUps = some "B") ∧
      (aUps > 0 → bUps > 0 → resolveActiveGroup aUps bUps = some "A+B") ∧
      (aUps = 0 → bUps = 0 → resolveActiveGroup aUps bUps = none) := by
  intro a b
  refine ⟨?_, ?_, ?_, ?_⟩ <;> intro h1 h2 <;>
    simp only [resolveActiveGroup] <;> split_ifs with g1 g2 g3 <;>
    first
      | rfl
      | (exfalso; omega)

/-- Witness for C2 at the concrete counts from the spec scenario:
success counts 5 and 0 resolve to group A, counts 0 and 0 to none, and
counts 2 and 1 to both groups. -/
theorem resolveActiveGroup_cases_witness :
    resolveActiveGroup 5 0 = some "A" ∧ resolveActiveGroup 0 0 = none ∧
      resolveActiveGroup 2 1 = some "A+B" :=
  ⟨(resolveActiveGroup_cases 5 0).1 (by decide) rfl,
   (resolveActiveGroup_cases 0 0).2.2.2 rfl rfl,
   (resolveActiveGroup_cases 2 1).2.2.1 (by decide) (by decide)⟩

/-! ### Endpoint prober sample reduction (source: tail of measurePing) -/

/-- Models the JS Math.round on a rational sample: round half up. -/
def jsRound (x : ℚ) : ℤ := Int.floor (x + 1 / 2)

/-- Source: results.sort((a, b) => a - b), ascending sort of the
collected valid samples. -/
def sortedSamples (samples : List ℚ) : List ℚ :=
  List.insertionSort (· ≤ ·) samples

/-- Source: the reduction at the end of measurePing: null when no valid
sample was collected, otherwise Math.max(1, Math.round(sorted[floor(n / 2)])). -/
def measurePingReduce (samples : List ℚ) : Option ℤ :=
  if samples.length = 0 then none
  else some (max 1 (jsRound ((sortedSamples samples).getD (samples.length / 2) 0)))

/-! ### Claim C3: median reduction of probe samples -/

/-- C3: the probe result is the median of the collected valid samples
(an element m of the samples with at least half the samples at or below
it and at least half at or above it), rounded to the nearest whole
millisecond and floored at 1 ms; with zero valid samples the result is
absent. -/
theorem measurePingReduce_median :
    ∀ samples : List ℚ,
      (samples = [] → measurePingReduce samples = none) ∧
      (samples ≠ [] → ∃ m : ℚ, m ∈ samples ∧
        samples.length ≤ 2 * samples.countP (fun x => decide (x ≤ m)) ∧
        samples.length ≤ 2 * samples.countP (fun x => decide (m ≤ x)) ∧
        measurePingReduce samples = some (max 1 (jsRound m)) ∧
        ∀ r : ℤ, measurePingReduce samples = some r → 1 ≤ r) := by
  intro samples
  constructor
  · intro h
    subst h
    rfl
  · intro hne
    have hn : 0 < samples.length := List.length_pos.mpr hne
    have hperm : (sortedSamples samples).Perm samples :=
      List.perm_insertionSort _ _
    have hlen : (sortedSamples samples).length = samples.length := hperm.length_eq
    have hsorted : List.Pairwise (· ≤ ·) (sortedSamples samples) :=
      List.sorted_insertionSort _ samples
    have hpw := List.pairwise_iff_getElem.mp hsorted
    have hilt : samples.length / 2 < (sortedSamples samples).length := by omega
    refine ⟨(sortedSamples samples)[samples.length / 2], ?_, ?_, ?_, ?_, ?_⟩
    · exact hperm.mem_iff.mp (List.getElem_mem hilt)
    · -- at least half of the samples are at or below the chosen element
      have e1 := hperm.countP_eq
        (fun x => decide (x ≤ (sortedSamples samples)[samples.length / 2]))
      have hsplit := List.countP_append
        (fun x => decide (x ≤ (sortedSamples samples)[samples.length / 2]))
        ((sortedSamples samples).take (samples.length / 2 + 1))
        ((sortedSamples samples).drop (samples.length / 2 + 1))
      rw [List.take_append_drop] at hsplit
      have htake : ((sortedSamples samples).take (samples.length / 2 + 1)).countP
          (fun x => decide (x ≤ (sortedSamples samples)[samples.length / 2])) =
          ((sortedSamples samples).take (samples.length / 2 + 1)).length := by
        refine List.countP_eq_length.mpr ?_
        intro a ha
        obtain ⟨j, hj, hja⟩ := List.mem_iff_getElem.mp ha
        have hj2 : j < samples.length / 2 + 1 := by
          have := hj
          rw [List.length_take] at this
          omega
        rw [List.getElem_take] at hja
        subst hja
        rcases Nat.lt_or_ge j (samples.length / 2) with hlt | hge
        · exact decide_eq_true_eq.mpr (hpw j (samples.length / 2) (by omega) hilt hlt)
        · have : j = samples.length / 2 := by omega
          subst this
          exact decide_eq_true_eq.mpr le_rfl
      have hlentake : ((sortedSamples samples).take (samples.length / 2 + 1)).length =
          samples.length / 2 + 1 := by
        rw [List.length_take]
        omega
      omega
    · -- at least half of the samples are at or above the chosen element
      have e1 := hperm.countP_eq
        (fun x => decide ((sortedSamples samples)[samples.length / 2] ≤ x))
      have hsplit := List.countP_append
        (fun x => decide ((sortedSamples samples)[samples.length / 2] ≤ x))
        ((sortedSamples samples).take (samples.length / 2))
        ((sortedSamples samples).drop (samples.length / 2))
      rw [List.take_append_drop] at hsplit
      have hdrop : ((sortedSamples samples).drop (samples.length / 2)).countP
          (fun x => decide ((sortedSamples samples)[samples.length / 2] ≤ x)) =
          ((sortedSamples samples).drop (samples.length / 2)).length := by
        refine List.countP_eq_length.mpr ?_
        intro a ha
        obtain ⟨j, hj, hja⟩ := List.mem_iff_getElem.mp ha
        rw [List.getElem_drop] at hja
        subst hja
        rcases Nat.eq_zero_or_pos j with hj0 | hjpos
        · subst hj0
          exact decide_eq_true_eq.mpr le_rfl
        · refine decide_eq_true_eq.mpr
            (hpw (samples.length / 2) (samples.length / 2 + j) hilt ?_ (by omega))
          have := hj
          rw [List.length_drop] at this
          omega
      have hlendrop : ((sortedSamples samples).drop (samples.length / 2)).length =
          (sortedSamples samples).length - samples.length / 2 := List.length_drop _ _
      omega
    · simp only [measurePingReduce, if_neg (by omega : ¬samples.length = 0)]
      rw [List.getD_eq_getElem _ _ hilt]
    · intro r hr
      simp only [measurePingReduce, if_neg (by omega : ¬samples.length = 0),
        Option.some.injEq] at hr
      subst hr
      exact le_max_left 1 _

/-- Witness for C3 at the spec test vector [10, 20, 30]. -/
theorem measurePingReduce_median_witness :
    (([10, 20, 30] : List ℚ) ≠ []) ∧
      (∃ m : ℚ, m ∈ ([10, 20, 30] : List ℚ) ∧
        ([10, 20, 30] : List ℚ).length ≤
          2 * ([10, 20, 30] : List ℚ).countP (fun x => decide (x ≤ m)) ∧
        ([10, 20, 30] : List ℚ).length ≤
          2 * ([10, 20, 30] : List ℚ).countP (fun x => decide (m ≤ x)) ∧
        measurePingReduce [10, 20, 30] = some (max 1 (jsRound m)) ∧
        ∀ r : ℤ, measurePingReduce [10, 20, 30] = some r → 1 ≤ r) :=
  ⟨by decide, (measurePingReduce_median [10, 20, 30]).2 (by decide)⟩

/-! ### Provider bucketing (source: selectPrimaryProvider) -/

/-- The three configured geolocation providers of the geo route. -/
inductive Provider where
  | batch
  | json
  | ipwhois
deriving DecidableEq, Repr

/-- Models JS String.prototype.split(".") on the character list of a
string: splitting on single dots, keeping empty pieces, with the empty
string splitting to one empty piece. -/
def splitOnDot : List Char → List (List Char)
  | [] => [[]]
  | c :: rest =>
    let r := splitOnDot rest
    if c = '.' then [] :: r
    else
      match r with
      | [] => [[c]]
      | p :: ps => (c :: p) :: ps

/-- Value of a non-empty all-digit character list, none otherwise. -/
def digitsToNat? (cs : List Char) : Option Nat :=
  if cs ≠ [] ∧ cs.all Char.isDigit then
    some (cs.foldl (fun n c => n * 10 + (c.toNat - '0'.toNat)) 0)
  else none

/-- Models JS Number() on the component strings that occur here: the
empty string parses to 0, a digit string to its value, and anything else
to NaN (none). -/
def jsNumberOfPart? (cs : List Char) : Option Nat :=
  if cs = [] then some 0 else digitsToNat? cs

/-- Source: Number(ip.split(".").at(-1)), the numeric value of the final
dot-separated component of the IP string. -/
def lastOctetNum? (ip : String) : Option Nat :=
  match (splitOnDot ip.toList).getLast? with
  | some p => jsNumberOfPart? p
  | none => none

/-- Source: the deterministic bucket of a final-octet value, last % 6:
residues 0 and 1 give ipwho.is, residue 2 gives ip-api/json, residues 3,
4 and 5 give the batch provider. -/
def bucketProvider (last : Nat) : Provider :=
  if last % 6 = 0 ∨ last % 6 = 1 then Provider.ipwhois
  else if last % 6 = 2 then Provider.json
  else Provider.batch

/-- Source function selectPrimaryProvider: batch when the final component
is not a finite number, otherwise the bucket of its value. -/
def selectPrimaryProvider (ip : String) : Provider :=
  match lastOctetNum? ip with
  | none => Provider.batch
  | some last => bucketProvider last

/-! ### Claim C4: deterministic provider split -/

set_option maxRecDepth 4096 in
/-- C4: the primary-provider assignment is a pure function of the final
octet of the IP taken modulo the fixed divisor 6 (two IP strings whose
final octets agree modulo 6 always get the same provider, so repeated
calls on one IP trivially agree), and over the 256 possible final-octet
values the split is 127 batch, 43 ip-api/json and 86 ipwho.is out of 256,
which is approximately 50, 17 and 33 percent. -/
theorem selectPrimaryProvider_spec :
    (∀ ip : String,
      selectPrimaryProvider ip = Option.elim (lastOctetNum? ip) Provider.batch bucketProvider) ∧
    (∀ ip1 ip2 : String,
      (lastOctetNum? ip1).map (· % 6) = (lastOctetNum? ip2).map (· % 6) →
        selectPrimaryProvider ip1 = selectPrimaryProvider ip2) ∧
    ((List.range 256).filter (fun o => decide (bucketProvider o = Provider.batch))).length
      = 127 ∧
    ((List.range 256).filter (fun o => decide (bucketProvider o = Provider.json))).length
      = 43 ∧
    ((List.range 256).filter (fun o => decide (bucketProvider o = Provider.ipwhois))).length
      = 86 := by
  refine ⟨?_, ?_, by decide, by decide, by decide⟩
  · intro ip
    cases h : lastOctetNum? ip <;> simp [selectPrimaryProvider, h]
  · intro ip1 ip2 hmod
    cases h1 : lastOctetNum? ip1 with
    | none =>
      cases h2 : lastOctetNum? ip2 with
      | none => simp [selectPrimaryProvider, h1, h2]
      | some b => rw [h1, h2] at hmod; simp at hmod
    | some a =>
      cases h2 : lastOctetNum? ip2 with
      | none => rw [h1, h2] at hmod; simp at hmod
      | some b =>
        rw [h1, h2] at hmod
        simp only [Option.map_some', Option.some.injEq] at hmod
        simp only [selectPrimaryProvider, h1, h2, bucketProvider, hmod]

/-- Witness for C4: the IP strings 1.2.3.8 and 9.9.9.2 have final octets
agreeing modulo 6, and both are assigned the same provider. -/
theorem selectPrimaryProvider_spec_witness :
    (lastOctetNum? "1.2.3.8").map (· % 6) = (lastOctetNum? "9.9.9.2").map (· % 6) ∧
      selectPrimaryProvider "1.2.3.8" = selectPrimaryProvider "9.9.9.2" :=
  ⟨by decide, selectPrimaryProvider_spec.2.1 "1.2.3.8" "9.9.9.2" (by decide)⟩

/-! ### Claim C5: merge of geo records -/

/-- C5: mergeInfo yields, for each of the three fields, the secondary
field when non-empty and otherwise the primary field; consequently
merging with the empty record on either side is the identity. -/
theorem mergeInfo_spec :
    ∀ a b : GeoInfo,
      ((mergeInfo a b).country_code =
        if b.country_code = "" then a.country_code else b.country_code) ∧
      ((mergeInfo a b).country = if b.country = "" then a.country else b.country) ∧
      ((mergeInfo a b).org = if b.org = "" then a.org else b.org) ∧
      mergeInfo a EMPTY_INFO = a ∧
      mergeInfo EMPTY_INFO b = b := by
  intro a b
  refine ⟨rfl, rfl, rfl, ?_, ?_⟩
  · cases a
    simp [mergeInfo, EMPTY_INFO]
  · cases b with
    | mk cc c o =>
      simp only [mergeInfo, EMPTY_INFO]
      congr 1 <;> split <;> simp_all

/-! ### Geo cache and the POST handler of the geo route

The in-memory cache and the per-request results object are modelled as
association lists with JS Map/object semantics: a lookup returns the
first binding of the key, an insert overwrites in place or appends. -/

/-- Association-list model of a JS Map or plain object keyed by IP. -/
abbrev GeoMap := List (String × GeoInfo)

/-- Lookup of a key: the value of its first binding, none when absent. -/
def mapGet : GeoMap → String → Option GeoInfo
  | [], _ => none
  | (k2, v) :: rest, k => if k2 = k then some v else mapGet rest k

/-- Insert of a binding: overwrite the existing binding in place, append
when the key is absent. -/
def mapSet : GeoMap → String → GeoInfo → GeoMap
  | [], k, v => [(k, v)]
  | (k2, v2) :: rest, k, v =>
    if k2 = k then (k, v) :: rest else (k2, v2) :: mapSet rest k v

/-- Models the dotted-quad test of the regex used by the POST handler,
one to three digits in each of four dot-separated components. -/
def octetPartOk (cs : List Char) : Bool :=
  decide (1 ≤ cs.length) && decide (cs.length ≤ 3) && cs.all Char.isDigit

/-- Source: ipRegex.test(ip) for the pattern of four dot-separated runs
of one to three digits. -/
def ipRegexTest (s : String) : Bool :=
  let parts := splitOnDot s.toList
  (parts.length == 4) && parts.all octetPartOk

/-- One element of the request ips array: some string entries and none
for entries of any other JSON type. The handler keeps exactly the string
entries matching the dotted-quad pattern. -/
def entryFilter : Option String → Option String
  | some s => if ipRegexTest s then some s else none
  | none => none

/-- Normalized network responses of the five lookup rounds the handler
can issue. Each function gives the normalized record the provider would
produce for an IP in that round; the batch provider may omit a row for a
requested IP (none), while the two single-IP adapters always produce a
record for every requested IP (failures normalize to the empty record). -/
structure ProviderNet where
  batchResp : String → Option GeoInfo
  jsonResp : String → GeoInfo
  whoisResp : String → GeoInfo
  enrichJsonResp : String → GeoInfo
  enrichWhoisResp : String → GeoInfo

/-- Observable trace of one POST call: HTTP status, the results mapping
of the response, the cache after the call, the request list handed to
each provider in the primary round, the enrichment candidates, the
request list handed to each single-IP provider in the enrichment round,
and the intermediate results mapping right after the primary merge. -/
structure PostTrace where
  status : Nat
  results : GeoMap
  cacheAfter : GeoMap
  batchReq : List String
  jsonReq : List String
  whoisReq : List String
  needsEnrich : List String
  enrichJsonReq : List String
  enrichWhoisReq : List String
  results1 : GeoMap

/-- Source: the valid IPs of a request, the string entries matching the
dotted-quad pattern, in order. -/
def validIpsOf (entries : List (Option String)) : List String :=
  entries.filterMap entryFilter

/-- One step of the classification loop, restricted to its results
object: a cache hit is copied into results, a miss leaves them alone. -/
def cachedStep (cache : GeoMap) (res : GeoMap) (ip : String) : GeoMap :=
  match mapGet cache ip with
  | some v => mapSet res ip v
  | none => res

/-- Source: the classification loop, restricted to its results object:
every cache hit is copied into results. -/
def cachedPass (cache : GeoMap) (validIps : List String) : GeoMap :=
  validIps.foldl (cachedStep cache) []

/-- Source: the classification loop, restricted to the uncached list:
the valid IPs missing from the cache, in order. -/
def uncachedOf (cache : GeoMap) (validIps : List String) : List String :=
  validIps.filter (fun ip => (mapGet cache ip).isNone)

/-- Primary-round request list of the batch provider. -/
def batchIpsOf (uncached : List String) : List String :=
  uncached.filter (fun ip => decide (selectPrimaryProvider ip = Provider.batch))

/-- Primary-round request list of the ip-api/json provider. -/
def jsonIpsOf (uncached : List String) : List String :=
  uncached.filter (fun ip => decide (selectPrimaryProvider ip = Provider.json))

/-- Primary-round request list of the ipwho.is provider. -/
def whoisIpsOf (uncached : List String) : List String :=
  uncached.filter (fun ip => decide (selectPrimaryProvider ip = Provider.ipwhois))

/-- Source: the first merge loop body for one uncached IP: read each
primary-round map (empty record when the IP was not requested there or
the batch response omitted it), merge batch then json then ipwho.is,
store into results, and cache the merged record only when it has info. -/
def round1Step (net : ProviderNet) (batchIps jsonIps whoisIps : List String)
    (acc : GeoMap × GeoMap) (ip : String) : GeoMap × GeoMap :=
  let fromBatch := (if ip ∈ batchIps then net.batchResp ip else none).getD EMPTY_INFO
  let fromJson := (if ip ∈ jsonIps then some (net.jsonResp ip) else none).getD EMPTY_INFO
  let fromWhois := (if ip ∈ whoisIps then some (net.whoisResp ip) else none).getD EMPTY_INFO
  let info := mergeInfo (mergeInfo fromBatch fromJson) fromWhois
  (mapSet acc.1 ip info, if hasGeoInfo info then mapSet acc.2 ip info else acc.2)

/-- The results and cache after the primary round. -/
def stage1 (net : ProviderNet) (cache : GeoMap) (validIps : List String) :
    GeoMap × GeoMap :=
  (uncachedOf cache validIps).foldl
    (round1Step net (batchIpsOf (uncachedOf cache validIps))
      (jsonIpsOf (uncachedOf cache validIps))
      (whoisIpsOf (uncachedOf cache validIps)))
    (cachedPass cache validIps, cache)

/-- Source: the needsEnrichment test on the results object: the record
for the IP is absent or still missing country or org. -/
def needsEnrichTest (res : GeoMap) (ip : String) : Bool :=
  match mapGet res ip with
  | none => true
  | some r => (r.country == "") || (r.org == "")

/-- Source: the needsEnrichment list of a call. -/
def needsEnrichOf (net : ProviderNet) (cache : GeoMap) (validIps : List String) :
    List String :=
  (uncachedOf cache validIps).filter
    (fun ip => needsEnrichTest (stage1 net cache validIps).1 ip)

/-- Enrichment-round request list of the ip-api/json provider: the
enrichment candidates whose primary route was not ip-api/json. -/
def enrichJsonReqOf (net : ProviderNet) (cache : GeoMap) (validIps : List String) :
    List String :=
  (needsEnrichOf net cache validIps).filter
    (fun ip => decide (ip ∉ jsonIpsOf (uncachedOf cache validIps)))

/-- Enrichment-round request list of the ipwho.is provider: the
enrichment candidates whose primary route was not ipwho.is. -/
def enrichWhoisReqOf (net : ProviderNet) (cache : GeoMap) (validIps : List String) :
    List String :=
  (needsEnrichOf net cache validIps).filter
    (fun ip => decide (ip ∉ whoisIpsOf (uncachedOf cache validIps)))

/-- Source: the enrichment loop body for one candidate IP: merge the two
enrichment responses (empty record when the IP was not requested from
that provider) on top of the current record, store into results, and
cache the merged record only when it has info. -/
def enrichStep (net : ProviderNet) (enrichJsonReq enrichWhoisReq : List String)
    (acc : GeoMap × GeoMap) (ip : String) : GeoMap × GeoMap :=
  let base := (mapGet acc.1 ip).getD EMPTY_INFO
  let jv := (if ip ∈ enrichJsonReq then some (net.enrichJsonResp ip) else none).getD EMPTY_INFO
  let wv := (if ip ∈ enrichWhoisReq then some (net.enrichWhoisResp ip) else none).getD EMPTY_INFO
  let merged := mergeInfo (mergeInfo base jv) wv
  (mapSet acc.1 ip merged, if hasGeoInfo merged then mapSet acc.2 ip merged else acc.2)

/-- The results and cache after the enrichment round. -/
def stage2 (net : ProviderNet) (cache : GeoMap) (validIps : List String) :
    GeoMap × GeoMap :=
  (needsEnrichOf net cache validIps).foldl
    (enrichStep net (enrichJsonReqOf net cache validIps)
      (enrichWhoisReqOf net cache validIps))
    (stage1 net cache validIps)

/-- One step of the final loop: fill an all-empty record for an uncached
IP still absent from results. -/
def fillStep (res : GeoMap) (ip : String) : GeoMap :=
  if (mapGet res ip).isNone then mapSet res ip EMPTY_INFO else res

/-- Source: the final loop filling an all-empty record for any uncached
IP still absent from results. -/
def fillEmpty (uncached : List String) (res : GeoMap) : GeoMap :=
  uncached.foldl fillStep res

/-- The trace of a request that passed validation. The source guards the
whole lookup block with uncached.length greater than 0; the guard is
omitted here because every stage is definitionally the identity on an
empty uncached list, so the guarded and unguarded forms agree. -/
def geoPostMain (cache : GeoMap) (validIps : List String) (net : ProviderNet) :
    PostTrace :=
  { status := 200
    results := fillEmpty (uncachedOf cache validIps) (stage2 net cache validIps).1
    cacheAfter := (stage2 net cache validIps).2
    batchReq := batchIpsOf (uncachedOf cache validIps)
    jsonReq := jsonIpsOf (uncachedOf cache validIps)
    whoisReq := whoisIpsOf (uncachedOf cache validIps)
    needsEnrich := needsEnrichOf net cache validIps
    enrichJsonReq := enrichJsonReqOf net cache validIps
    enrichWhoisReq := enrichWhoisReqOf net cache validIps
    results1 := (stage1 net cache validIps).1 }

/-- Trace of a request rejected with status 400: nothing is looked up and
the cache is untouched. -/
def err400 (cache : GeoMap) : PostTrace :=
  { status := 400, results := [], cacheAfter := cache, batchReq := [], jsonReq := [],
    whoisReq := [], needsEnrich := [], enrichJsonReq := [], enrichWhoisReq := [],
    results1 := [] }

/-- Source: the POST handler of the geo route on a parsed request body.
The ips field is none when it is missing or not an array; a 400 response
is returned when it is missing, not an array, empty or longer than 100,
and otherwise the string entries matching the dotted-quad pattern are
processed. -/
def geoPost (cache : GeoMap) (ipsField : Option (List (Option String)))
    (net : ProviderNet) : PostTrace :=
  match ipsField with
  | none => err400 cache
  | some entries =>
    if entries.length = 0 ∨ entries.length > 100 then err400 cache
    else geoPostMain cache (validIpsOf entries) net

/-- A network where every lookup fails: the batch provider returns no
rows and the single-IP adapters normalize everything to the empty
record. -/
def trivialNet : ProviderNet :=
  { batchResp := fun _ => none
    jsonResp := fun _ => EMPTY_INFO
    whoisResp := fun _ => EMPTY_INFO
    enrichJsonResp := fun _ => EMPTY_INFO
    enrichWhoisResp := fun _ => EMPTY_INFO }

/-- A network where only the primary-round ip-api/json adapter knows the
country and nobody knows the org. -/
def netJsonCountryOnly : ProviderNet :=
  { batchResp := fun _ => none
    jsonResp := fun _ => { country_code := "JP", country := "Japan", org := "" }
    whoisResp := fun _ => EMPTY_INFO
    enrichJsonResp := fun _ => EMPTY_INFO
    enrichWhoisResp := fun _ => EMPTY_INFO }

/-! ### Basic properties of the association-list maps and of the loops -/

theorem mapGet_mapSet_self (m : GeoMap) (k : String) (v : GeoInfo) :
    mapGet (mapSet m k v) k = some v := by
  induction m with
  | nil => simp [mapSet, mapGet]
  | cons p rest ih =>
    obtain ⟨k2, v2⟩ := p
    by_cases h : k2 = k
    · simp [mapSet, h, mapGet]
    · simp [mapSet, h, mapGet, ih]

theorem mapGet_mapSet_ne (m : GeoMap) (k k2 : String) (v : GeoInfo) (h : k2 ≠ k) :
    mapGet (mapSet m k v) k2 = mapGet m k2 := by
  induction m with
  | nil => simp [mapSet, mapGet, Ne.symm h]
  | cons p rest ih =>
    obtain ⟨k3, v3⟩ := p
    by_cases h3 : k3 = k
    · subst h3
      simp [mapSet, mapGet, Ne.symm h]
    · simp [mapSet, mapGet, h3, ih]

/-- A predicate preserved by every step of a fold is preserved by the
fold. -/
theorem foldl_preserve {α σ : Type} (f : σ → α → σ) (P : σ → Prop)
    (hf : ∀ a x, P a → P (f a x)) :
    ∀ (l : List α) (a : σ), P a → P (l.foldl f a) := by
  intro l
  induction l with
  | nil => intro a ha; exact ha
  | cons x t ih =>
    intro a ha
    rw [List.foldl_cons]
    exact ih _ (hf a x ha)

/-- A fold whose steps write only at the current key leaves the lookup at
a key absent from the folded list unchanged (map accumulator). -/
theorem foldl_get_preserve_map (f : GeoMap → String → GeoMap)
    (hf : ∀ a x k, k ≠ x → mapGet (f a x) k = mapGet a k) :
    ∀ (l : List String) (a : GeoMap) (k : String), (∀ x ∈ l, x ≠ k) →
      mapGet (l.foldl f a) k = mapGet a k := by
  intro l
  induction l with
  | nil => intro a k _; rfl
  | cons x t ih =>
    intro a k hk
    rw [List.foldl_cons, ih _ k (fun y hy => hk y (List.mem_cons_of_mem _ hy)),
      hf a x k (Ne.symm (hk x (List.mem_cons_self _ _)))]

/-- A fold whose steps write only at the current key leaves the lookup at
a key absent from the folded list unchanged (results component of a
results-and-cache accumulator). -/
theorem foldl_get_preserve_pair (f : GeoMap × GeoMap → String → GeoMap × GeoMap)
    (hf : ∀ a x k, k ≠ x → mapGet (f a x).1 k = mapGet a.1 k) :
    ∀ (l : List String) (a : GeoMap × GeoMap) (k : String), (∀ x ∈ l, x ≠ k) →
      mapGet (l.foldl f a).1 k = mapGet a.1 k := by
  intro l
  induction l with
  | nil => intro a k _; rfl
  | cons x t ih =>
    intro a k hk
    rw [List.foldl_cons, ih _ k (fun y hy => hk y (List.mem_cons_of_mem _ hy)),
      hf a x k (Ne.symm (hk x (List.mem_cons_self _ _)))]

theorem cachedStep_get_ne (cache : GeoMap) :
    ∀ (res : GeoMap) (x k : String), k ≠ x →
      mapGet (cachedStep cache res x) k = mapGet res k := by
  intro res x k hk
  unfold cachedStep
  cases mapGet cache x with
  | none => rfl
  | some v => exact mapGet_mapSet_ne _ _ _ _ hk

theorem fillStep_get_ne :
    ∀ (res : GeoMap) (x k : String), k ≠ x →
      mapGet (fillStep res x) k = mapGet res k := by
  intro res x k hk
  unfold fillStep
  split
  · exact mapGet_mapSet_ne _ _ _ _ hk
  · rfl

theorem round1Step_get_ne (net : ProviderNet) (b j w : List String) :
    ∀ (acc : GeoMap × GeoMap) (x k : String), k ≠ x →
      mapGet (round1Step net b j w acc x).1 k = mapGet acc.1 k := by
  intro acc x k hk
  simp only [round1Step]
  exact mapGet_mapSet_ne _ _ _ _ hk

theorem enrichStep_get_ne (net : ProviderNet) (eJ eW : List String) :
    ∀ (acc : GeoMap × GeoMap) (x k : String), k ≠ x →
      mapGet (enrichStep net eJ eW acc x).1 k = mapGet acc.1 k := by
  intro acc x k hk
  simp only [enrichStep]
  exact mapGet_mapSet_ne _ _ _ _ hk

/-- Membership in the valid-IP list of a request: exactly the string
entries matching the dotted-quad pattern. -/
theorem mem_validIpsOf {entries : List (Option String)} {s : String} :
    s ∈ validIpsOf entries ↔ (some s ∈ entries ∧ ipRegexTest s = true) := by
  unfold validIpsOf
  rw [List.mem_filterMap]
  constructor
  · rintro ⟨e, he, hf⟩
    cases e with
    | none => simp [entryFilter] at hf
    | some s2 =>
      simp only [entryFilter] at hf
      by_cases ht : ipRegexTest s2
      · rw [if_pos ht] at hf
        cases hf
        exact ⟨he, ht⟩
      · rw [if_neg ht] at hf
        cases hf
  · rintro ⟨he, ht⟩
    exact ⟨some s, he, by simp [entryFilter, ht]⟩

/-- After the classification loop, a cached valid IP maps to its cached
record in the results object. -/
theorem cachedPass_get_hit (cache : GeoMap) (ip : String) (info : GeoInfo)
    (hcache : mapGet cache ip = some info) :
    ∀ (l : List String) (res : GeoMap),
      (mapGet res ip = some info ∨ ip ∈ l) →
      mapGet (l.foldl (cachedStep cache) res) ip = some info := by
  intro l
  induction l with
  | nil =>
    intro res h
    rcases h with h | h
    · exact h
    · cases h
  | cons x t ih =>
    intro res h
    rw [List.foldl_cons]
    apply ih
    by_cases hx : x = ip
    · subst hx
      left
      unfold cachedStep
      rw [hcache]
      exact mapGet_mapSet_self _ _ _
    · rcases h with h | h
      · left
        rw [cachedStep_get_ne cache res x ip (fun he => hx he.symm)]
        exact h
      · rcases List.mem_cons.mp h with h | h
        · exact absurd h.symm hx
        · right
          exact h

/-- Lookup after the whole success path at a key outside the valid-IP
list is absent. -/
theorem geoPostMain_get_outside (cache : GeoMap) (v : List String) (net : ProviderNet)
    (s : String) (hs : ∀ x ∈ v, x ≠ s) :
    mapGet (geoPostMain cache v net).results s = none := by
  have hu : ∀ x ∈ uncachedOf cache v, x ≠ s :=
    fun x hx => hs x (List.mem_filter.mp hx).1
  have hnE : ∀ x ∈ needsEnrichOf net cache v, x ≠ s :=
    fun x hx => hu x (List.mem_filter.mp hx).1
  show mapGet (fillEmpty (uncachedOf cache v) (stage2 net cache v).1) s = none
  unfold fillEmpty
  rw [foldl_get_preserve_map fillStep fillStep_get_ne _ _ _ hu]
  unfold stage2
  rw [foldl_get_preserve_pair _ (enrichStep_get_ne net _ _) _ _ _ hnE]
  unfold stage1
  rw [foldl_get_preserve_pair _ (round1Step_get_ne net _ _ _) _ _ _ hu]
  unfold cachedPass
  rw [foldl_get_preserve_map _ (cachedStep_get_ne cache) _ _ _ hs]
  rfl

/-- The geo cache invariant: every stored record has at least one
non-empty field. -/
def CacheInv (c : GeoMap) : Prop :=
  ∀ ip info, mapGet c ip = some info → hasGeoInfo info = true

theorem CacheInv_mapSet {c : GeoMap} {k : String} {v : GeoInfo}
    (h : CacheInv c) (hv : hasGeoInfo v = true) : CacheInv (mapSet c k v) := by
  intro ip info hget
  by_cases hik : ip = k
  · subst hik
    rw [mapGet_mapSet_self] at hget
    cases hget
    exact hv
  · rw [mapGet_mapSet_ne _ _ _ _ hik] at hget
    exact h ip info hget

/-- A conditional insert guarded by hasGeoInfo preserves the cache
invariant. -/
theorem CacheInv_condSet (c : GeoMap) (k : String) (v : GeoInfo) (h : CacheInv c) :
    CacheInv (if hasGeoInfo v then mapSet c k v else c) := by
  by_cases hv : hasGeoInfo v
  · rw [if_pos hv]
    exact CacheInv_mapSet h hv
  · rw [if_neg hv]
    exact h

theorem round1Step_inv (net : ProviderNet) (b j w : List String)
    (acc : GeoMap × GeoMap) (ip : String) (h : CacheInv acc.2) :
    CacheInv (round1Step net b j w acc ip).2 := by
  simp only [round1Step]
  exact CacheInv_condSet _ _ _ h

theorem enrichStep_inv (net : ProviderNet) (eJ eW : List String)
    (acc : GeoMap × GeoMap) (ip : String) (h : CacheInv acc.2) :
    CacheInv (enrichStep net eJ eW acc ip).2 := by
  simp only [enrichStep]
  exact CacheInv_condSet _ _ _ h

/-! ### Claim C6: only records with info are ever cached -/

/-- C6: every operation of the resolver keeps the geo cache invariant
that a stored record has hasGeoInfo true: starting from any cache
satisfying the invariant, the cache after any POST call still satisfies
it, because both insertion sites are guarded by hasGeoInfo, so an
all-empty record is never stored and a failed lookup is retried later. -/
theorem geoPost_cache_invariant (cache : GeoMap)
    (ipsField : Option (List (Option String))) (net : ProviderNet)
    (h : CacheInv cache) : CacheInv (geoPost cache ipsField net).cacheAfter := by
  cases ipsField with
  | none => exact h
  | some entries =>
    by_cases hvalid : entries.length = 0 ∨ entries.length > 100
    · simp only [geoPost, if_pos hvalid]
      exact h
    · simp only [geoPost, if_neg hvalid]
      show CacheInv (stage2 net cache (validIpsOf entries)).2
      have hstage1 : CacheInv (stage1 net cache (validIpsOf entries)).2 := by
        unfold stage1
        apply foldl_preserve _ (fun acc : GeoMap × GeoMap => CacheInv acc.2)
        · intro a x ha
          exact round1Step_inv net _ _ _ a x ha
        · exact h
      unfold stage2
      apply foldl_preserve _ (fun acc : GeoMap × GeoMap => CacheInv acc.2)
      · intro a x ha
        exact enrichStep_inv net _ _ a x ha
      · exact hstage1

/-- Witness for C6: the empty cache satisfies the invariant, and so does
the cache after a lookup of one IP over a dead network. -/
theorem geoPost_cache_invariant_witness :
    CacheInv ([] : GeoMap) ∧
      CacheInv (geoPost [] (some [some "1.2.3.4"]) trivialNet).cacheAfter := by
  have h0 : CacheInv ([] : GeoMap) := by
    intro ip info hget
    simp [mapGet] at hget
  exact ⟨h0, geoPost_cache_invariant [] (some [some "1.2.3.4"]) trivialNet h0⟩

/-! ### Claim C7: cache hits short-circuit provider lookups -/

/-- C7: for every IP present in the cache at the start of a POST call
and appearing among the valid request IPs, the call returns exactly the
cached record for that IP and hands the IP to no provider: it is in none
of the five request lists of the call. -/
theorem geoPost_cached_shortcircuit (cache : GeoMap)
    (entries : List (Option String)) (net : ProviderNet) (ip : String)
    (info : GeoInfo)
    (hlen0 : entries.length ≠ 0) (hlen1 : entries.length ≤ 100)
    (hmem : ip ∈ validIpsOf entries)
    (hcache : mapGet cache ip = some info) :
    mapGet (geoPost cache (some entries) net).results ip = some info ∧
    ip ∉ (geoPost cache (some entries) net).batchReq ∧
    ip ∉ (geoPost cache (some entries) net).jsonReq ∧
    ip ∉ (geoPost cache (some entries) net).whoisReq ∧
    ip ∉ (geoPost cache (some entries) net).enrichJsonReq ∧
    ip ∉ (geoPost cache (some entries) net).enrichWhoisReq := by
  have hcond : ¬(entries.length = 0 ∨ entries.length > 100) := by omega
  simp only [geoPost, if_neg hcond]
  have hipnot : ip ∉ uncachedOf cache (validIpsOf entries) := by
    intro hin
    have h2 := (List.mem_filter.mp hin).2
    rw [hcache] at h2
    simp at h2
  have hne : ∀ x ∈ uncachedOf cache (validIpsOf entries), x ≠ ip :=
    fun x hx he => hipnot (he ▸ hx)
  have hneE : ∀ x ∈ needsEnrichOf net cache (validIpsOf entries), x ≠ ip :=
    fun x hx => hne x (List.mem_filter.mp hx).1
  refine ⟨?_, ?_, ?_, ?_, ?_, ?_⟩
  · show mapGet (fillEmpty (uncachedOf cache (validIpsOf entries))
      (stage2 net cache (validIpsOf entries)).1) ip = some info
    unfold fillEmpty
    rw [foldl_get_preserve_map fillStep fillStep_get_ne _ _ _ hne]
    unfold stage2
    rw [foldl_get_preserve_pair _ (enrichStep_get_ne net _ _) _ _ _ hneE]
    unfold stage1
    rw [foldl_get_preserve_pair _ (round1Step_get_ne net _ _ _) _ _ _ hne]
    unfold cachedPass
    exact cachedPass_get_hit cache ip info hcache _ _ (Or.inr hmem)
  · intro hin
    exact hipnot (List.mem_filter.mp hin).1
  · intro hin
    exact hipnot (List.mem_filter.mp hin).1
  · intro hin
    exact hipnot (List.mem_filter.mp hin).1
  · intro hin
    exact hipnot (List.mem_filter.mp (List.mem_filter.mp hin).1).1
  · intro hin
    exact hipnot (List.mem_filter.mp (List.mem_filter.mp hin).1).1

/-- Witness for C7: with 1.2.3.4 cached as a Japanese record, a request
for it returns the cached record and queries no provider. -/
theorem geoPost_cached_shortcircuit_witness :
    let cache : GeoMap := [("1.2.3.4", { country_code := "JP", country := "Japan", org := "NTT" })]
    mapGet (geoPost cache (some [some "1.2.3.4"]) trivialNet).results "1.2.3.4" =
        some { country_code := "JP", country := "Japan", org := "NTT" } ∧
      "1.2.3.4" ∉ (geoPost cache (some [some "1.2.3.4"]) trivialNet).batchReq ∧
      "1.2.3.4" ∉ (geoPost cache (some [some "1.2.3.4"]) trivialNet).jsonReq ∧
      "1.2.3.4" ∉ (geoPost cache (some [some "1.2.3.4"]) trivialNet).whoisReq ∧
      "1.2.3.4" ∉ (geoPost cache (some [some "1.2.3.4"]) trivialNet).enrichJsonReq ∧
      "1.2.3.4" ∉ (geoPost cache (some [some "1.2.3.4"]) trivialNet).enrichWhoisReq :=
  geoPost_cached_shortcircuit _ _ trivialNet "1.2.3.4" _ (by decide) (by decide)
    (by decide) (by decide)

/-! ### Claim C8: request validation and silent dropping -/

/-- C8: the handler returns a 400 response exactly when the ips field is
missing or not a list (modelled by none) or is an empty list or a list of
more than 100 entries; for a list of valid length, any entry that does
not match the dotted-quad pattern causes no error and is dropped from
processing: the response is 200, the dropped string appears in no request
list, and the results mapping has no entry for it. -/
theorem geoPost_validation (cache : GeoMap) (net : ProviderNet) :
    ((geoPost cache none net).status = 400) ∧
    (∀ entries : List (Option String),
      ((geoPost cache (some entries) net).status = 400 ↔
        (entries.length = 0 ∨ entries.length > 100))) ∧
    (∀ (entries : List (Option String)) (s : String),
      entries.length ≠ 0 → entries.length ≤ 100 →
      some s ∈ entries → ipRegexTest s = false →
        (geoPost cache (some entries) net).status = 200 ∧
        mapGet (geoPost cache (some entries) net).results s = none ∧
        s ∉ (geoPost cache (some entries) net).batchReq ∧
        s ∉ (geoPost cache (some entries) net).jsonReq ∧
        s ∉ (geoPost cache (some entries) net).whoisReq ∧
        s ∉ (geoPost cache (some entries) net).enrichJsonReq ∧
        s ∉ (geoPost cache (some entries) net).enrichWhoisReq) := by
  refine ⟨rfl, ?_, ?_⟩
  · intro entries
    by_cases hc : entries.length = 0 ∨ entries.length > 100
    · simp only [geoPost, if_pos hc, err400]
      exact ⟨fun _ => hc, fun _ => trivial⟩
    · simp only [geoPost, if_neg hc]
      constructor
      · intro h2
        exact absurd h2 (by simp [geoPostMain])
      · intro h2
        exact absurd h2 hc
  · intro entries s h0 h1 hment hbad
    have hc : ¬(entries.length = 0 ∨ entries.length > 100) := by omega
    simp only [geoPost, if_neg hc]
    have hnv : ∀ x ∈ validIpsOf entries, x ≠ s := by
      intro x hx he
      subst he
      exact absurd (mem_validIpsOf.mp hx).2 (by simp [hbad])
    have hu : ∀ x ∈ uncachedOf cache (validIpsOf entries), x ≠ s :=
      fun x hx => hnv x (List.mem_filter.mp hx).1
    refine ⟨rfl, geoPostMain_get_outside cache _ net s hnv, ?_, ?_, ?_, ?_, ?_⟩
    · intro hin
      exact hu s (List.mem_filter.mp hin).1 rfl
    · intro hin
      exact hu s (List.mem_filter.mp hin).1 rfl
    · intro hin
      exact hu s (List.mem_filter.mp hin).1 rfl
    · intro hin
      exact hu s (List.mem_filter.mp (List.mem_filter.mp hin).1).1 rfl
    · intro hin
      exact hu s (List.mem_filter.mp (List.mem_filter.mp hin).1).1 rfl

/-- Witness for C8: a missing ips field gives 400, a list of 101 entries
gives 400, and in a two-entry request the non-matching entry is dropped
while the request still succeeds. -/
theorem geoPost_validation_witness :
    ((geoPost [] none trivialNet).status = 400) ∧
    ((geoPost [] (some (List.replicate 101 (some "1.2.3.4"))) trivialNet).status = 400) ∧
    ((geoPost [] (some [some "1.2.3.4", some "not-an-ip"]) trivialNet).status = 200 ∧
      mapGet (geoPost [] (some [some "1.2.3.4", some "not-an-ip"]) trivialNet).results
        "not-an-ip" = none ∧
      "not-an-ip" ∉ (geoPost [] (some [some "1.2.3.4", some "not-an-ip"]) trivialNet).batchReq ∧
      "not-an-ip" ∉ (geoPost [] (some [some "1.2.3.4", some "not-an-ip"]) trivialNet).jsonReq ∧
      "not-an-ip" ∉ (geoPost [] (some [some "1.2.3.4", some "not-an-ip"]) trivialNet).whoisReq ∧
      "not-an-ip" ∉ (geoPost [] (some [some "1.2.3.4", some "not-an-ip"]) trivialNet).enrichJsonReq ∧
      "not-an-ip" ∉ (geoPost [] (some [some "1.2.3.4", some "not-an-ip"]) trivialNet).enrichWhoisReq) :=
  ⟨(geoPost_validation [] trivialNet).1,
   ((geoPost_validation [] trivialNet).2.1 _).mpr (by simp),
   (geoPost_validation [] trivialNet).2.2 [some "1.2.3.4", some "not-an-ip"] "not-an-ip"
     (by decide) (by decide) (by simp) (by decide)⟩

/-! ### Claim C10: a valid list with no matching entry succeeds with empty results -/

/-- C10: a request whose ips field is a list of 1 to 100 entries, none of
which is a string matching the dotted-quad pattern, is answered with
status 200 and an empty results mapping, not with an error. -/
theorem geoPost_no_valid_entries (cache : GeoMap) (net : ProviderNet)
    (entries : List (Option String))
    (h0 : entries.length ≠ 0) (h1 : entries.length ≤ 100)
    (h2 : ∀ s : String, some s ∈ entries → ipRegexTest s = false) :
    (geoPost cache (some entries) net).status = 200 ∧
    (geoPost cache (some entries) net).results = [] := by
  have hc : ¬(entries.length = 0 ∨ entries.length > 100) := by omega
  have hv : validIpsOf entries = [] := by
    refine List.filterMap_eq_nil_iff.mpr ?_
    intro e he
    cases e with
    | none => rfl
    | some s => simp [entryFilter, h2 s he]
  simp only [geoPost, if_neg hc, hv]
  exact ⟨rfl, rfl⟩

/-- Witness for C10: one entry that is not a dotted quad gives a 200
response with empty results. -/
theorem geoPost_no_valid_entries_witness :
    (geoPost [] (some [some "not-an-ip"]) trivialNet).status = 200 ∧
    (geoPost [] (some [some "not-an-ip"]) trivialNet).results = [] :=
  geoPost_no_valid_entries [] trivialNet [some "not-an-ip"] (by decide) (by decide)
    (by intro s hs; simp at hs; subst hs; decide)

/-! ### Claim C9: which providers the enrichment pass queries -/

/-- Enrichment-round request list handed to each provider. The source
enrichment block issues lookups only to the ip-api/json and ipwho.is
adapters; it contains no batch lookup, so the batch list is empty. -/
def enrichRequestOf (t : PostTrace) : Provider → List String
  | Provider.batch => []
  | Provider.json => t.enrichJsonReq
  | Provider.ipwhois => t.enrichWhoisReq

/-- In the enrichment fold, every candidate IP ends with a record built
by merging the two enrichment responses on top of some base record under
the override-by-non-empty rule. -/
theorem enrich_fold_shape (net : ProviderNet) (eJ eW : List String) :
    ∀ (l : List String) (acc : GeoMap × GeoMap) (ip : String), ip ∈ l →
      ∃ base : GeoInfo,
        mapGet (l.foldl (enrichStep net eJ eW) acc).1 ip =
          some (mergeInfo (mergeInfo base
            ((if ip ∈ eJ then some (net.enrichJsonResp ip) else none).getD EMPTY_INFO))
            ((if ip ∈ eW then some (net.enrichWhoisResp ip) else none).getD EMPTY_INFO)) := by
  intro l
  induction l with
  | nil =>
    intro acc ip h
    cases h
  | cons x t ih =>
    intro acc ip h
    rw [List.foldl_cons]
    by_cases hip : ip ∈ t
    · exact ih _ ip hip
    · have hx : x = ip := by
        rcases List.mem_cons.mp h with h2 | h2
        · exact h2.symm
        · exact absurd h2 hip
      subst hx
      refine ⟨(mapGet acc.1 x).getD EMPTY_INFO, ?_⟩
      rw [foldl_get_preserve_pair _ (enrichStep_get_ne net eJ eW) t _ x
        (fun y hy he => hip (he ▸ hy))]
      simp only [enrichStep]
      exact mapGet_mapSet_self _ _ _

/-- The final fill loop never removes or changes an existing results
entry. -/
theorem fillEmpty_get_some (l : List String) :
    ∀ (res : GeoMap) (ip : String) (v : GeoInfo),
      mapGet res ip = some v → mapGet (fillEmpty l res) ip = some v := by
  induction l with
  | nil =>
    intro res ip v h
    exact h
  | cons x t ih =>
    intro res ip v h
    show mapGet ((x :: t).foldl fillStep res) ip = some v
    rw [List.foldl_cons]
    apply ih
    by_cases hx : x = ip
    · subst hx
      unfold fillStep
      rw [h]
      simp [h]
    · rw [fillStep_get_ne res x ip (fun he => hx he.symm)]
      exact h

/-- Counterexample to C9 as stated: over a network where the primary
ip-api/json lookup yields a record with country but no org, a request for
the single IP 1.1.1.2 (final octet 2, so its primary provider is
ip-api/json) leaves the IP needing enrichment; the batch provider was not
its primary route, yet the enrichment pass does not query the batch
provider for it, so the resolver does not query every non-primary
provider. -/
theorem geoPost_enrichment_claim_false :
    ¬ (∀ (cache : GeoMap) (entries : List (Option String)) (net : ProviderNet)
        (ip : String) (p : Provider),
        ip ∈ (geoPost cache (some entries) net).needsEnrich →
        p ≠ selectPrimaryProvider ip →
        ip ∈ enrichRequestOf (geoPost cache (some entries) net) p) := by
  intro h
  have hmem : "1.1.1.2" ∈
      (geoPost [] (some [some "1.1.1.2"]) netJsonCountryOnly).needsEnrich := by
    decide
  have hne : Provider.batch ≠ selectPrimaryProvider "1.1.1.2" := by decide
  have h2 := h [] [some "1.1.1.2"] netJsonCountryOnly "1.1.1.2" Provider.batch hmem hne
  simp [enrichRequestOf] at h2

/-- C9 amended: in the enrichment pass, an uncached IP whose merged
record is still missing country or org is queried at exactly the
non-primary providers among the two single-IP adapters: it is in the
ip-api/json enrichment request list iff ip-api/json was not its primary
route, in the ipwho.is enrichment request list iff ipwho.is was not its
primary route, and it is never handed to the batch provider in the
enrichment pass; the results of those queries are merged on top of an
existing record under the override-by-non-empty-field rule. -/
theorem geoPost_enrichment_amended (cache : GeoMap)
    (entries : List (Option String)) (net : ProviderNet) (ip : String)
    (h : ip ∈ (geoPost cache (some entries) net).needsEnrich) :
    (ip ∈ (geoPost cache (some entries) net).enrichJsonReq ↔
      selectPrimaryProvider ip ≠ Provider.json) ∧
    (ip ∈ (geoPost cache (some entries) net).enrichWhoisReq ↔
      selectPrimaryProvider ip ≠ Provider.ipwhois) ∧
    ip ∉ enrichRequestOf (geoPost cache (some entries) net) Provider.batch ∧
    (∃ base : GeoInfo,
      mapGet (geoPost cache (some entries) net).results ip =
        some (mergeInfo (mergeInfo base
          ((if ip ∈ (geoPost cache (some entries) net).enrichJsonReq then
              some (net.enrichJsonResp ip) else none).getD EMPTY_INFO))
          ((if ip ∈ (geoPost cache (some entries) net).enrichWhoisReq then
              some (net.enrichWhoisResp ip) else none).getD EMPTY_INFO))) := by
  by_cases hc : entries.length = 0 ∨ entries.length > 100
  · rw [geoPost, if_pos hc] at h
    cases h
  · rw [geoPost, if_neg hc] at h ⊢
    have hN : ip ∈ needsEnrichOf net cache (validIpsOf entries) := h
    have hu : ip ∈ uncachedOf cache (validIpsOf entries) :=
      (List.mem_filter.mp h).1
    have hjson : ip ∈ jsonIpsOf (uncachedOf cache (validIpsOf entries)) ↔
        selectPrimaryProvider ip = Provider.json := by
      simp [jsonIpsOf, List.mem_filter, hu]
    have hwhois : ip ∈ whoisIpsOf (uncachedOf cache (validIpsOf entries)) ↔
        selectPrimaryProvider ip = Provider.ipwhois := by
      simp [whoisIpsOf, List.mem_filter, hu]
    have hJreq : ip ∈ (geoPostMain cache (validIpsOf entries) net).enrichJsonReq ↔
        selectPrimaryProvider ip ≠ Provider.json := by
      show ip ∈ enrichJsonReqOf net cache (validIpsOf entries) ↔ _
      rw [enrichJsonReqOf, List.mem_filter]
      simp [hN, hjson]
    have hWreq : ip ∈ (geoPostMain cache (validIpsOf entries) net).enrichWhoisReq ↔
        selectPrimaryProvider ip ≠ Provider.ipwhois := by
      show ip ∈ enrichWhoisReqOf net cache (validIpsOf entries) ↔ _
      rw [enrichWhoisReqOf, List.mem_filter]
      simp [hN, hwhois]
    refine ⟨hJreq, hWreq, by simp [enrichRequestOf], ?_⟩
    obtain ⟨base, hbase⟩ := enrich_fold_shape net
      (enrichJsonReqOf net cache (validIpsOf entries))
      (enrichWhoisReqOf net cache (validIpsOf entries))
      (needsEnrichOf net cache (validIpsOf entries))
      (stage1 net cache (validIpsOf entries)) ip h
    refine ⟨base, ?_⟩
    show mapGet (fillEmpty (uncachedOf cache (validIpsOf entries))
      (stage2 net cache (validIpsOf entries)).1) ip = _
    exact fillEmpty_get_some _ _ _ _ hbase

/-- Witness for the amended C9 at the concrete counterexample input: the
IP 1.1.1.2 needs enrichment, and since its primary route is ip-api/json
it is absent from the json enrichment list and present in the ipwho.is
one. -/
theorem geoPost_enrichment_amended_witness :
    "1.1.1.2" ∈ (geoPost [] (some [some "1.1.1.2"]) netJsonCountryOnly).needsEnrich ∧
      ("1.1.1.2" ∈ (geoPost [] (some [some "1.1.1.2"]) netJsonCountryOnly).enrichJsonReq ↔
        selectPrimaryProvider "1.1.1.2" ≠ Provider.json) ∧
      ("1.1.1.2" ∈ (geoPost [] (some [some "1.1.1.2"]) netJsonCountryOnly).enrichWhoisReq ↔
        selectPrimaryProvider "1.1.1.2" ≠ Provider.ipwhois) := by
  have hmem : "1.1.1.2" ∈
      (geoPost [] (some [some "1.1.1.2"]) netJsonCountryOnly).needsEnrich := by
    decide
  have h2 := geoPost_enrichment_amended [] [some "1.1.1.2"] netJsonCountryOnly
    "1.1.1.2" hmem
  exact ⟨hmem, h2.1, h2.2.1⟩

end IDV
